import Mathlib

/-!
Shallow embedding of the core of `steam_screenshot_rebinder`:
`core/replacer.py`, `core/mapping.py`, `core/scanner.py`, `core/autoscreen.py`.

Paths are modelled as stem/suffix records (Python `Path.suffix` is the
`suffix` field), the filesystem as an association list from paths to byte
lists, and the image codec (Pillow) as an opaque capability record with a
format detector and a fallible encoder, exactly as the code uses it.
Exceptions are modelled with `Except` / explicit error components.
-/

deriving instance DecidableEq for Except

namespace Rebinder

/-- Python's `str.lower()` as the code applies it (the tokens involved are
ASCII: format tokens and file extensions), written structurally over the
character list so it evaluates in the kernel. -/
def strLower (s : String) : String := ⟨s.data.map Char.toLower⟩

/-- A file path, split as Python's `pathlib` sees it: `suffix` is the
extension (with the dot), `stem` is everything before it. -/
structure FPath where
  stem : String
  suffix : String
deriving DecidableEq, Repr

/-- File contents as a byte sequence. -/
abbrev Bytes := List Nat

/-- The filesystem: a finite map from paths to contents, as an association
list (later bindings shadow earlier ones via `lookup`). -/
abbrev FS := List (FPath × Bytes)

/-- Content of a path, `none` if the file does not exist. -/
def FS.lookup (fs : FS) (p : FPath) : Option Bytes :=
  match fs with
  | [] => none
  | (q, b) :: rest => if q = p then some b else FS.lookup rest p

/-- Delete a path (Python `unlink`). -/
def FS.erase : FS → FPath → FS
  | [], _ => []
  | kv :: rest, p => if kv.1 = p then FS.erase rest p else kv :: FS.erase rest p

/-- Create or overwrite a path with the given contents. -/
def FS.insert (fs : FS) (p : FPath) (b : Bytes) : FS :=
  (p, b) :: FS.erase fs p

/-- `path.exists()`. -/
def FS.exists_ (fs : FS) (p : FPath) : Bool :=
  (fs.lookup p).isSome

/-- `path.stat().st_size`, defined on existing files. -/
def FS.size (fs : FS) (p : FPath) : Nat :=
  ((fs.lookup p).getD []).length

/-! ## `core/replacer.py` -/

/-- Result record of `replace_one` (`ReplaceResult` dataclass). -/
structure ReplaceResult where
  old : FPath
  new : FPath
  action : String
  bytes_before : Nat
  bytes_after : Nat
  ok : Bool
  error : Option String := none
deriving DecidableEq, Repr

/-- Python truthiness of an `str | None` value (`if force_format:`):
`None` and the empty string are falsy. -/
def pyTruthyOptStr : Option String → Bool
  | none => false
  | some s => s ≠ ""

/-- `_target_format_for`: canonical target format from the forced token or,
failing that, from the destination extension; an unrecognized forced token
raises `ValueError`. -/
def target_format_for (new_path : FPath) (force_format : Option String) :
    Except String String :=
  if pyTruthyOptStr force_format then
    let f := strLower (force_format.getD "")
    if f = "jpg" ∨ f = "jpeg" then .ok "JPEG"
    else if f = "png" then .ok "PNG"
    else .error ("Неизвестный force_format: " ++ force_format.getD "")
  else
    let ext := strLower new_path.suffix
    if ext = ".jpg" ∨ ext = ".jpeg" then .ok "JPEG"
    else if ext = ".png" then .ok "PNG"
    else .ok "JPEG"

/-- The temp file `_write_atomic` stages for `dst`
(`NamedTemporaryFile(dir=dst_dir, suffix=dst_path.suffix + ".tmp")`). -/
def tmpPathFor (dst : FPath) : FPath :=
  ⟨dst.stem, dst.suffix ++ ".tmp"⟩

/-- `_write_atomic`: create an (initially empty) temp file in the
destination's directory, run the writer against it, then atomically rename
it over `dst`; if the writer raises, delete the temp file and re-raise.
The writer is modelled by the bytes it would produce or the exception it
raises; the filesystem after the call is returned alongside the outcome. -/
def write_atomic (fs : FS) (dst : FPath) (writeFn : Except String Bytes) :
    Except String Unit × FS :=
  let tmp := tmpPathFor dst
  let fs1 := fs.insert tmp []
  match writeFn with
  | .error e => (.error e, fs1.erase tmp)
  | .ok content => (.ok (), ((fs1.insert tmp content).erase tmp).insert dst content)

/-- The Pillow capability exactly as the replacer consumes it: `detect`
models the `Image.open` probe for `(im.format or "").upper()` (`none` means
the open itself raised), and `encode` models decode + mode conversion +
`save` into the target format (`error` = any exception on that path). -/
structure Codec where
  detect : Bytes → Option String
  encode : Bytes → String → Except String Bytes

/-- `replace_one`: replace the content of `new_path` with content derived
from `old_path`, returning a `ReplaceResult` and the resulting filesystem. -/
def replace_one (codec : Codec) (fs : FS) (old_path new_path : FPath)
    (force_format : Option String) (dry_run : Bool) : ReplaceResult × FS :=
  let bytes_before := if fs.exists_ new_path then fs.size new_path else 0
  if dry_run then
    (⟨old_path, new_path, "dry-run", bytes_before, bytes_before, true, none⟩, fs)
  else if fs.exists_ old_path = false then
    (⟨old_path, new_path, "dry-run", bytes_before, bytes_before, false,
      some "OLD не найден"⟩, fs)
  else if fs.exists_ new_path = false then
    (⟨old_path, new_path, "dry-run", bytes_before, bytes_before, false,
      some "NEW не найден"⟩, fs)
  else
    match target_format_for new_path force_format with
    | .error e =>
        (⟨old_path, new_path, "error", bytes_before, bytes_before, false, some e⟩, fs)
    | .ok target_fmt =>
      let old_bytes := (fs.lookup old_path).getD []
      let src_fmt := codec.detect old_bytes
      if src_fmt = some target_fmt ∧ force_format = none then
        match write_atomic fs new_path (.ok old_bytes) with
        | (.ok _, fs2) =>
          let bytes_after := if fs2.exists_ new_path then fs2.size new_path else 0
          (⟨old_path, new_path, "copy-bytes", bytes_before, bytes_after, true, none⟩, fs2)
        | (.error e, fs2) =>
          (⟨old_path, new_path, "error", bytes_before, bytes_before, false, some e⟩, fs2)
      else
        match write_atomic fs new_path (codec.encode old_bytes target_fmt) with
        | (.ok _, fs2) =>
          let bytes_after := if fs2.exists_ new_path then fs2.size new_path else 0
          (⟨old_path, new_path, "reencode->" ++ target_fmt, bytes_before, bytes_after,
            true, none⟩, fs2)
        | (.error e, fs2) =>
          (⟨old_path, new_path, "error", bytes_before, bytes_before, false, some e⟩, fs2)

/-- `replace_many`: apply `replace_one` to every pair, threading the
filesystem; one result per pair, failures never abort the batch. -/
def replace_many (codec : Codec) (fs : FS) (pairs : List (FPath × FPath))
    (force_format : Option String) (dry_run : Bool) : List ReplaceResult × FS :=
  match pairs with
  | [] => ([], fs)
  | (o, n) :: rest =>
    let r := replace_one codec fs o n force_format dry_run
    let rs := replace_many codec r.2 rest force_format dry_run
    (r.1 :: rs.1, rs.2)

/-! ## `core/mapping.py` -/

/-- A replacement pair (`Pair` dataclass): content flows `old → new`. -/
structure MPair where
  old : FPath
  new : FPath
deriving DecidableEq, Repr

/-- The `build_pairs` length-mismatch warning text. -/
def mismatchMsg (n a b : Nat) : String :=
  "Будет использовано пар: " ++ toString n ++ " (OLD=" ++ toString a ++
    ", NEW=" ++ toString b ++ ")"

/-- The `build_pairs` count-limit warning text. -/
def limitMsg (n a b : Nat) : String :=
  "Ограничение по количеству: " ++ toString n ++ " (OLD=" ++ toString a ++
    ", NEW=" ++ toString b ++ ")"

/-- The `build_pairs` strict-mode `ValueError` text. -/
def strictMsg (a b : Nat) : String :=
  "Количество файлов не совпадает: OLD=" ++ toString a ++ " vs NEW=" ++ toString b

/-- `build_pairs`: positional pairing of the two lists, capped at `n`
(default: the shorter length), with warnings; strict mode raises on a
length mismatch. -/
def build_pairs (old_files new_files : List FPath) (nOpt : Option Nat)
    (strict_equal : Bool) : Except String (List MPair × List String) :=
  let n := nOpt.getD (min old_files.length new_files.length)
  if strict_equal ∧ old_files.length ≠ new_files.length then
    .error (strictMsg old_files.length new_files.length)
  else
    let w1 : List String :=
      if old_files.length ≠ new_files.length then
        [mismatchMsg n old_files.length new_files.length] else []
    let w2 : List String :=
      if old_files.length < n ∨ new_files.length < n then
        [limitMsg n old_files.length new_files.length] else []
    .ok (((old_files.take n).zip (new_files.take n)).map (fun q => ⟨q.1, q.2⟩),
      w1 ++ w2)

/-! ## `core/scanner.py` -/

/-- A directory entry as `Path.iterdir` yields it: a path plus whether the
entry is a regular file (subdirectories report `is_file` false). An
existing directory is modelled as its entry list, in OS order. -/
structure DirEntry where
  path : FPath
  is_file : Bool
deriving DecidableEq, Repr

/-- Default extension allow-list of `list_images_raw`. -/
def defaultExts : List String := [".jpg", ".png"]

/-- `list_images_raw` on an existing directory: keep regular files whose
lowercased extension is allowed, preserving OS order; never descends. -/
def list_images_raw (entries : List DirEntry) (exts : List String) : List FPath :=
  (entries.filter (fun e => e.is_file && decide (strLower e.path.suffix ∈ exts))).map
    DirEntry.path

/-- The `scan_old_new` shortfall warning text (`b` = NEW count, `a` = OLD
count). -/
def shortfallMsg (b a : Nat) : String :=
  "Файлов в NEW меньше (" ++ toString b ++ ") чем в OLD (" ++ toString a ++
    "). Будет использовано " ++ toString b ++ " пар."

/-- Empty-OLD-directory warning text. -/
def emptyOldMsg : String := "Папка OLD пуста"

/-- Empty-NEW-directory warning text. -/
def emptyNewMsg : String := "Папка NEW пуста"

/-- `scan_old_new` on two existing directories: list both, warn on empty
listings, cap at `n` (default: the OLD count); if NEW has fewer than `n`
files, truncate both to the NEW count and warn. -/
def scan_old_new (old_entries new_entries : List DirEntry) (nOpt : Option Nat) :
    List FPath × List FPath × List String :=
  let old_files := list_images_raw old_entries defaultExts
  let new_files := list_images_raw new_entries defaultExts
  let w1 : List String := if old_files = [] then [emptyOldMsg] else []
  let w2 : List String := if new_files = [] then [emptyNewMsg] else []
  let n := nOpt.getD old_files.length
  if new_files.length < n then
    (old_files.take new_files.length, new_files.take new_files.length,
      w1 ++ w2 ++ [shortfallMsg new_files.length old_files.length])
  else
    (old_files.take n, new_files.take n, w1 ++ w2)

/-! ## `core/autoscreen.py` -/

/-- `AutoScreener` instance state. `rem` is `_remaining`: the code only
decrements it under a `> 0` guard, so it stays a natural number and the
`remaining` property (`max(0, _remaining)`) coincides with it. Timestamps
are modelled as rationals. -/
structure AutoScreener where
  count : Nat
  interval : Rat
  start_delay : Rat
  started_at : Option Rat
  next_fire : Option Rat
  rem : Nat
  state : String
deriving DecidableEq, Repr

/-- `AutoScreener.__init__` after its validation checks pass. -/
def AutoScreener.init (count : Nat) (interval start_delay : Rat) : AutoScreener :=
  ⟨count, interval, start_delay, none, none, count, "idle"⟩

/-- Python evaluation of `x or d` for `x : float | None`: both `None` and
`0.0` are falsy and fall through to `d`. -/
def pyOrQ (x : Option Rat) (d : Rat) : Rat :=
  match x with
  | none => d
  | some v => if v = 0 then d else v

/-- `AutoScreener.start`. -/
def AutoScreener.start (s : AutoScreener) (now : Rat) : AutoScreener :=
  { s with started_at := some now, next_fire := some (now + s.start_delay),
           rem := s.count,
           state := if s.start_delay > 0 then "countdown" else "running" }

/-- `AutoScreener.stop`. -/
def AutoScreener.stop (s : AutoScreener) : AutoScreener :=
  { s with state := "stopped" }

/-- `AutoScreener.seconds_to_next`. -/
def AutoScreener.seconds_to_next (s : AutoScreener) (now : Rat) : Rat :=
  match s.next_fire with
  | none => 0
  | some nf => max 0 (nf - now)

/-- The `while` loop of `tick` in state `running`: each iteration sends one
key press, decrements `_remaining` and advances
`_next_fire = (self._next_fire or now) + self.interval`. Returns the new
`_remaining`, the new `_next_fire`, and the number of presses sent. -/
def fireLoop (now interval : Rat) : Nat → Option Rat → Nat × Option Rat × Nat
  | 0, nf => (0, nf, 0)
  | r + 1, nf =>
    let v := pyOrQ nf now
    if now ≥ v then
      let res := fireLoop now interval r (some (v + interval))
      (res.1, res.2.1, res.2.2 + 1)
    else (r + 1, nf, 0)

/-- `AutoScreener.tick`: returns the successor state, the
`(state, remaining, seconds_to_next)` triple the method returns, and the
number of key presses emitted during the call. -/
def AutoScreener.tick (s : AutoScreener) (now : Rat) :
    AutoScreener × (String × Nat × Rat) × Nat :=
  if s.state = "done" ∨ s.state = "stopped" ∨ s.state = "idle" then
    (s, (s.state, s.rem, 0), 0)
  else
    let s1 := if s.state = "countdown" ∧ now ≥ pyOrQ s.next_fire now then
      { s with state := "running" } else s
    if s1.state = "running" then
      let res := fireLoop now s1.interval s1.rem s1.next_fire
      let s2 := { s1 with rem := res.1, next_fire := res.2.1 }
      let s3 := if s2.rem = 0 then { s2 with state := "done" } else s2
      (s3, (s3.state, s3.rem, s3.seconds_to_next now), res.2.2)
    else
      (s1, (s1.state, s1.rem, s1.seconds_to_next now), 0)

/-- One external interaction with a started scheduler. -/
inductive SchedOp where
  | tickOp (now : Rat)
  | stopOp
deriving DecidableEq, Repr

/-- Apply one interaction, keeping only the state. -/
def applyOp (s : AutoScreener) : SchedOp → AutoScreener
  | .tickOp now => (s.tick now).1
  | .stopOp => s.stop

/-- Run a sequence of interactions. -/
def runOps (s : AutoScreener) (ops : List SchedOp) : AutoScreener :=
  ops.foldl applyOp s

/-! ## Concrete fixtures for counterexamples and witnesses -/

/-- An origin file present in `fxFS`. -/
def fxOld : FPath := ⟨"old", ".jpg"⟩

/-- A destination file present in `fxFS`. -/
def fxNew : FPath := ⟨"new", ".jpg"⟩

/-- A path absent from `fxFS`. -/
def fxMissing : FPath := ⟨"missing", ".jpg"⟩

/-- A tiny filesystem with one origin and one destination file. -/
def fxFS : FS := [(fxOld, [1, 2, 3]), (fxNew, [9, 9])]

/-- A codec that detects JPEG everywhere and encodes by prefixing a byte. -/
def fxCodec : Codec := ⟨fun _ => some "JPEG", fun b f => .ok (f.length :: b)⟩

/-- A codec that detects PNG everywhere and whose encoder always raises. -/
def fxCodecFail : Codec := ⟨fun _ => some "PNG", fun _ _ => .error "boom"⟩

/-- A directory with a single eligible image. -/
def fxOldDir : List DirEntry := [⟨fxOld, true⟩]

/-- A directory with two eligible images. -/
def fxNewDir : List DirEntry := [⟨fxNew, true⟩, ⟨fxMissing, true⟩]

/-! ## Auxiliary lemmas -/

theorem FS.lookup_erase_ne (fs : FS) (p q : FPath) (h : p ≠ q) :
    (fs.erase p).lookup q = fs.lookup q := by
  induction fs with
  | nil => rfl
  | cons kv rest ih =>
    by_cases hk : kv.1 = p
    · have hq : kv.1 ≠ q := by rw [hk]; exact h
      simp only [FS.erase, if_pos hk, FS.lookup, if_neg hq]
      exact ih
    · simp only [FS.erase, if_neg hk, FS.lookup]
      by_cases hq : kv.1 = q
      · simp [hq]
      · simp only [if_neg hq]
        exact ih

theorem FS.lookup_erase_self (fs : FS) (p : FPath) :
    (fs.erase p).lookup p = none := by
  induction fs with
  | nil => rfl
  | cons kv rest ih =>
    by_cases hk : kv.1 = p
    · simpa [FS.erase, if_pos hk] using ih
    · simp only [FS.erase, if_neg hk, FS.lookup, if_neg hk]
      exact ih

theorem FS.lookup_insert_self (fs : FS) (p : FPath) (b : Bytes) :
    (fs.insert p b).lookup p = some b := by
  simp [FS.insert, FS.lookup]

theorem FS.lookup_insert_ne (fs : FS) (p q : FPath) (b : Bytes) (h : p ≠ q) :
    (fs.insert p b).lookup q = fs.lookup q := by
  simp only [FS.insert, FS.lookup]
  rw [if_neg h]
  exact FS.lookup_erase_ne fs p q h

theorem tmpPathFor_ne (dst : FPath) : tmpPathFor dst ≠ dst := by
  intro h
  have hs : dst.suffix ++ ".tmp" = dst.suffix := congrArg FPath.suffix h
  have : (dst.suffix ++ ".tmp").length = dst.suffix.length := by rw [hs]
  rw [String.length_append] at this
  have h4 : (".tmp" : String).length = 4 := rfl
  omega

theorem data_append' (s t : String) : (s ++ t).data = s.data ++ t.data := by
  cases s; cases t; rfl

theorem head_mismatchMsg (n a b : Nat) : (mismatchMsg n a b).data.head? = some 'Б' := by
  simp [mismatchMsg, data_append', List.head?_append]

theorem head_limitMsg (n a b : Nat) : (limitMsg n a b).data.head? = some 'О' := by
  simp [limitMsg, data_append', List.head?_append]

theorem mismatchMsg_ne_limitMsg (n a b n' a' b' : Nat) :
    mismatchMsg n a b ≠ limitMsg n' a' b' := by
  intro h
  have h1 := head_mismatchMsg n a b
  rw [h, head_limitMsg] at h1
  exact absurd (Option.some.inj h1) (by decide)

/-! ## Claim theorems -/

/-- C9: with simulate on, `replace_one` mutates nothing and returns a
successful outcome of the simulated action-kind with size-after equal to
size-before; consequently two consecutive simulated calls leave the
destination's bytes (hence its size) unchanged. -/
theorem C9_dry_run_no_mutation (codec : Codec) (fs : FS) (o n : FPath)
    (ff : Option String) :
    (replace_one codec fs o n ff true).2 = fs ∧
    (replace_one codec fs o n ff true).1.ok = true ∧
    (replace_one codec fs o n ff true).1.action = "dry-run" ∧
    (replace_one codec fs o n ff true).1.bytes_after =
      (replace_one codec fs o n ff true).1.bytes_before ∧
    (replace_one codec (replace_one codec fs o n ff true).2 o n ff true).2.lookup n =
      fs.lookup n := by
  simp [replace_one]

/-- C3 as stated is false at a concrete input: with the origin missing, the
outcome is a genuine failure with the distinguishing message, but its
action-kind is the simulated kind `"dry-run"`, not the failed kind
`"error"` of the taxonomy. -/
theorem C3_counterexample :
    (replace_one fxCodec fxFS fxMissing fxNew none false).1.ok = false ∧
    (replace_one fxCodec fxFS fxMissing fxNew none false).1.error =
      some "OLD не найден" ∧
    (replace_one fxCodec fxFS fxMissing fxNew none false).1.action = "dry-run" ∧
    ¬(replace_one fxCodec fxFS fxMissing fxNew none false).1.action = "error" := by
  decide

/-- C3 amended: when either path is missing (simulate off), `replace_one`
returns a failed outcome (success=false) whose message distinguishes the
missing-origin case from the missing-destination case and leaves the
filesystem untouched — but the outcome's action-kind is the simulated kind
`"dry-run"`, not the failed kind. -/
theorem C3_missing_path_failed_outcome (codec : Codec) (fs : FS) (o n : FPath)
    (ff : Option String) (h : fs.lookup o = none ∨ fs.lookup n = none) :
    (replace_one codec fs o n ff false).1.ok = false ∧
    (replace_one codec fs o n ff false).1.action = "dry-run" ∧
    (replace_one codec fs o n ff false).1.error =
      some (if fs.lookup o = none then "OLD не найден" else "NEW не найден") ∧
    (replace_one codec fs o n ff false).2 = fs := by
  by_cases ho : fs.lookup o = none
  · simp [replace_one, FS.exists_, ho]
  · have hn : fs.lookup n = none := h.resolve_left ho
    have ho' : (fs.lookup o).isSome = true := Option.isSome_iff_ne_none.mpr ho
    simp [replace_one, FS.exists_, ho, hn, ho']

/-- Witness for the amended C3 at a concrete input (missing destination). -/
theorem C3_missing_path_failed_outcome_witness :
    (fxFS.lookup fxOld = none ∨ fxFS.lookup fxMissing = none) ∧
    ((replace_one fxCodec fxFS fxOld fxMissing none false).1.ok = false ∧
     (replace_one fxCodec fxFS fxOld fxMissing none false).1.action = "dry-run" ∧
     (replace_one fxCodec fxFS fxOld fxMissing none false).1.error =
       some (if fxFS.lookup fxOld = none then "OLD не найден" else "NEW не найден") ∧
     (replace_one fxCodec fxFS fxOld fxMissing none false).2 = fxFS) :=
  ⟨Or.inr (by decide),
   C3_missing_path_failed_outcome fxCodec fxFS fxOld fxMissing none (Or.inr (by decide))⟩

/-- C8 as stated is false at a concrete input: an unrecognized forced
token does not propagate out of `replace_one`; the `ValueError` raised by
format resolution is caught by the surrounding handler and converted into
a per-item failed outcome. -/
theorem C8_counterexample :
    replace_one fxCodec fxFS fxOld fxNew (some "gif") false =
      (⟨fxOld, fxNew, "error", 2, 2, false, some "Неизвестный force_format: gif"⟩,
        fxFS) := by
  decide

/-- C8 amended: a forced token that is not a case-insensitive JPEG-family
or PNG token (simulate off, both paths present) makes `replace_one` return
a per-item failed outcome carrying the invalid-format message, with
size-after = size-before and the filesystem untouched; the validation
error is caught, it does not propagate to the caller. -/
theorem C8_invalid_token_failed_outcome (codec : Codec) (fs : FS) (o n : FPath)
    (tok : String) (ho : (fs.lookup o).isSome = true)
    (hn : (fs.lookup n).isSome = true) (htok : tok ≠ "")
    (hj : strLower tok ≠ "jpg") (hje : strLower tok ≠ "jpeg")
    (hp : strLower tok ≠ "png") :
    replace_one codec fs o n (some tok) false =
      (⟨o, n, "error", fs.size n, fs.size n, false,
        some ("Неизвестный force_format: " ++ tok)⟩, fs) := by
  have ht : target_format_for n (some tok) =
      .error ("Неизвестный force_format: " ++ tok) := by
    simp [target_format_for, pyTruthyOptStr, htok, hj, hje, hp]
  simp [replace_one, FS.exists_, ho, hn, ht, FS.size]

/-- Witness for the amended C8 at a concrete input. -/
theorem C8_invalid_token_failed_outcome_witness :
    ((fxFS.lookup fxOld).isSome = true ∧ (fxFS.lookup fxNew).isSome = true ∧
     "webp" ≠ "" ∧ strLower "webp" ≠ "jpg" ∧ strLower "webp" ≠ "jpeg" ∧
     strLower "webp" ≠ "png") ∧
    replace_one fxCodec fxFS fxOld fxNew (some "webp") false =
      (⟨fxOld, fxNew, "error", 2, 2, false,
        some ("Неизвестный force_format: " ++ "webp")⟩, fxFS) :=
  ⟨⟨by decide, by decide, by decide, by decide, by decide, by decide⟩, by
    have h := C8_invalid_token_failed_outcome fxCodec fxFS fxOld fxNew "webp"
      (by decide) (by decide) (by decide) (by decide) (by decide) (by decide)
    rw [h]
    decide⟩

/-- C2: with no forced format and the origin's detected format equal to the
format resolved from the destination extension, `replace_one` performs a
raw byte copy: action `copy-bytes`, success, and the destination's bytes
afterwards equal the origin's bytes byte-for-byte (so size-after is the
origin's byte count). -/
theorem C2_format_match_byte_copy (codec : Codec) (fs : FS) (o n : FPath)
    (ob : Bytes) (tf : String) (ho : fs.lookup o = some ob)
    (hn : (fs.lookup n).isSome = true)
    (ht : target_format_for n none = .ok tf)
    (hd : codec.detect ob = some tf) :
    (replace_one codec fs o n none false).1.action = "copy-bytes" ∧
    (replace_one codec fs o n none false).1.ok = true ∧
    (replace_one codec fs o n none false).2.lookup n = some ob ∧
    (replace_one codec fs o n none false).1.bytes_after = ob.length := by
  have ho' : (fs.lookup o).isSome = true := by rw [ho]; rfl
  have hw : ∀ fs' : FS, (fs'.insert n ob).lookup n = some ob :=
    fun fs' => FS.lookup_insert_self fs' n ob
  simp only [replace_one, FS.exists_, ho', hn, Bool.true_eq_false, if_false, ht, ho,
    Option.getD_some, hd, and_self, if_true, write_atomic, if_pos, FS.size]
  simp [hw]

/-- Witness for C2 at a concrete input: a JPEG origin copied over a `.jpg`
destination byte-for-byte. -/
theorem C2_format_match_byte_copy_witness :
    (fxFS.lookup fxOld = some [1, 2, 3] ∧ (fxFS.lookup fxNew).isSome = true ∧
     target_format_for fxNew none = .ok "JPEG" ∧
     fxCodec.detect [1, 2, 3] = some "JPEG") ∧
    ((replace_one fxCodec fxFS fxOld fxNew none false).1.action = "copy-bytes" ∧
     (replace_one fxCodec fxFS fxOld fxNew none false).1.ok = true ∧
     (replace_one fxCodec fxFS fxOld fxNew none false).2.lookup fxNew =
       some [1, 2, 3] ∧
     (replace_one fxCodec fxFS fxOld fxNew none false).1.bytes_after = 3) :=
  ⟨⟨by decide, by decide, by decide, by decide⟩,
   C2_format_match_byte_copy fxCodec fxFS fxOld fxNew [1, 2, 3] "JPEG"
     (by decide) (by decide) (by decide) (by decide)⟩

/-- C1: if the encode/write step raises inside a non-simulated
`replace_one` (the re-encode branch is taken and the writer fails), the
temporary file is deleted, the destination's content — and therefore its
size — is identical to before the call, and the returned outcome is a
failure whose size-after equals size-before. -/
theorem C1_write_failure_atomic (codec : Codec) (fs : FS) (o n : FPath)
    (ob : Bytes) (tf : String) (e : String) (ff : Option String)
    (ho : fs.lookup o = some ob) (hn : (fs.lookup n).isSome = true)
    (ht : target_format_for n ff = .ok tf)
    (hbr : ¬(codec.detect ob = some tf ∧ ff = none))
    (henc : codec.encode ob tf = .error e) :
    (replace_one codec fs o n ff false).1.ok = false ∧
    (replace_one codec fs o n ff false).1.action = "error" ∧
    (replace_one codec fs o n ff false).1.error = some e ∧
    (replace_one codec fs o n ff false).1.bytes_after =
      (replace_one codec fs o n ff false).1.bytes_before ∧
    (replace_one codec fs o n ff false).2.lookup n = fs.lookup n ∧
    (replace_one codec fs o n ff false).2.lookup (tmpPathFor n) = none := by
  have ho' : (fs.lookup o).isSome = true := by rw [ho]; rfl
  have htmp : tmpPathFor n ≠ n := tmpPathFor_ne n
  have hlook : ∀ fs' : FS, ((fs'.insert (tmpPathFor n) []).erase (tmpPathFor n)).lookup n
      = fs'.lookup n := fun fs' => by
    rw [FS.lookup_erase_ne _ _ _ htmp, FS.lookup_insert_ne _ _ _ _ htmp]
  simp only [replace_one, FS.exists_, ho', hn, Bool.true_eq_false, if_false, ht, ho,
    Option.getD_some, hbr, if_neg, write_atomic, henc, FS.size]
  refine ⟨rfl, rfl, rfl, rfl, hlook fs, FS.lookup_erase_self _ _⟩

/-- Witness for C1 at a concrete input: a codec whose encoder raises, on a
pair whose detected format (PNG) differs from the resolved target (JPEG). -/
theorem C1_write_failure_atomic_witness :
    (fxFS.lookup fxOld = some [1, 2, 3] ∧ (fxFS.lookup fxNew).isSome = true ∧
     target_format_for fxNew none = .ok "JPEG" ∧
     ¬(fxCodecFail.detect [1, 2, 3] = some "JPEG" ∧ (none : Option String) = none) ∧
     fxCodecFail.encode [1, 2, 3] "JPEG" = .error "boom") ∧
    ((replace_one fxCodecFail fxFS fxOld fxNew none false).1.ok = false ∧
     (replace_one fxCodecFail fxFS fxOld fxNew none false).1.action = "error" ∧
     (replace_one fxCodecFail fxFS fxOld fxNew none false).1.error = some "boom" ∧
     (replace_one fxCodecFail fxFS fxOld fxNew none false).1.bytes_after =
       (replace_one fxCodecFail fxFS fxOld fxNew none false).1.bytes_before ∧
     (replace_one fxCodecFail fxFS fxOld fxNew none false).2.lookup fxNew =
       fxFS.lookup fxNew ∧
     (replace_one fxCodecFail fxFS fxOld fxNew none false).2.lookup
       (tmpPathFor fxNew) = none) :=
  ⟨⟨by decide, by decide, by decide, by decide, by decide⟩,
   C1_write_failure_atomic fxCodecFail fxFS fxOld fxNew [1, 2, 3] "JPEG" "boom" none
     (by decide) (by decide) (by decide) (by decide) (by decide)⟩

/-- C5: with no explicit limit and strict mode off, `build_pairs` returns
exactly `min |O| |N|` pairs, formed by positional zip over the first
`min |O| |N|` elements of each list, and its warnings contain the
length-mismatch warning iff the two lengths differ. -/
theorem C5_build_pairs_min_zip (O N : List FPath) :
    ∃ ps ws, build_pairs O N none false = .ok (ps, ws) ∧
      ps.length = min O.length N.length ∧
      ps = ((O.take (min O.length N.length)).zip
        (N.take (min O.length N.length))).map (fun q => ⟨q.1, q.2⟩) ∧
      (mismatchMsg (min O.length N.length) O.length N.length ∈ ws ↔
        O.length ≠ N.length) := by
  have h2 : ¬(O.length < min O.length N.length ∨ N.length < min O.length N.length) := by
    omega
  have hbp : build_pairs O N none false = .ok
      (((O.take (min O.length N.length)).zip (N.take (min O.length N.length))).map
        (fun q => ⟨q.1, q.2⟩),
       if O.length ≠ N.length then
         [mismatchMsg (min O.length N.length) O.length N.length] else []) := by
    simp only [build_pairs, Option.getD_none]
    rw [if_neg (by simp), if_neg h2]
    simp
  refine ⟨_, _, hbp, ?_, rfl, ?_⟩
  · simp only [List.length_map, List.length_zip, List.length_take]
    omega
  · by_cases h : O.length = N.length <;> simp [h]

/-- C7 as stated is false at a concrete input: with lists of lengths 2 and
1 and no explicit limit, the effective count is 1 and the origin list is
longer than 1, yet the only warning is the length-mismatch one — no
"count limited" warning is appended. -/
theorem C7_counterexample :
    ([fxOld, fxNew].length > 1) ∧
    build_pairs [fxOld, fxNew] [fxMissing] none false =
      .ok ([⟨fxOld, fxMissing⟩], [mismatchMsg 1 2 1]) ∧
    limitMsg 1 2 1 ∉ [mismatchMsg 1 2 1] := by
  refine ⟨by decide, by decide, ?_⟩
  simp only [List.mem_singleton]
  exact fun h => mismatchMsg_ne_limitMsg 1 2 1 1 2 1 h.symm

/-- C7 amended: with strict mode off, `build_pairs` appends the
"count limited to n" warning exactly when either input list is strictly
SHORTER than the effective pair count `n` (possible only when an explicit
limit exceeds a list's length), not when a list is longer than `n`. -/
theorem C7_limit_warning_iff_shorter (O N : List FPath) (nOpt : Option Nat) :
    ∃ ps ws, build_pairs O N nOpt false = .ok (ps, ws) ∧
      (limitMsg (nOpt.getD (min O.length N.length)) O.length N.length ∈ ws ↔
        (O.length < nOpt.getD (min O.length N.length) ∨
         N.length < nOpt.getD (min O.length N.length))) := by
  have hbp : build_pairs O N nOpt false = .ok
      (((O.take (nOpt.getD (min O.length N.length))).zip
          (N.take (nOpt.getD (min O.length N.length)))).map (fun q => ⟨q.1, q.2⟩),
       (if O.length ≠ N.length then
          [mismatchMsg (nOpt.getD (min O.length N.length)) O.length N.length]
        else []) ++
       (if O.length < nOpt.getD (min O.length N.length) ∨
           N.length < nOpt.getD (min O.length N.length) then
          [limitMsg (nOpt.getD (min O.length N.length)) O.length N.length]
        else [])) := by
    simp only [build_pairs]
    rw [if_neg (by simp)]
  have hne : limitMsg (nOpt.getD (min O.length N.length)) O.length N.length ≠
      mismatchMsg (nOpt.getD (min O.length N.length)) O.length N.length :=
    (mismatchMsg_ne_limitMsg _ _ _ _ _ _).symm
  refine ⟨_, _, hbp, ?_⟩
  by_cases hc2 : O.length < nOpt.getD (min O.length N.length) ∨
      N.length < nOpt.getD (min O.length N.length) <;>
    by_cases hc1 : O.length = N.length <;>
    simp [hc1, hc2, hne]

/-- C10: with an explicit limit `n`, when the origin directory yields fewer
than `n` eligible images and the destination directory yields at least `n`,
`scan_old_new` keeps the origin list whole — strictly shorter than the
destination list truncated to `n` — and emits no warning about this
mismatch (only a possible empty-OLD warning): the shortfall warning and
mutual truncation apply only when the destination count is below `n`. -/
theorem C10_origin_short_no_warning (oldE newE : List DirEntry) (n : Nat)
    (h1 : (list_images_raw oldE defaultExts).length < n)
    (h2 : n ≤ (list_images_raw newE defaultExts).length) :
    scan_old_new oldE newE (some n) =
      (list_images_raw oldE defaultExts,
       (list_images_raw newE defaultExts).take n,
       if list_images_raw oldE defaultExts = [] then [emptyOldMsg] else []) ∧
    (list_images_raw oldE defaultExts).length <
      ((list_images_raw newE defaultExts).take n).length := by
  have hnf : ¬((list_images_raw newE defaultExts).length < n) := by omega
  have hne : list_images_raw newE defaultExts ≠ [] := by
    intro h
    rw [h] at h2
    simp only [List.length_nil, Nat.le_zero] at h2
    omega
  constructor
  · simp only [scan_old_new, Option.getD_some]
    rw [if_neg hnf, List.take_of_length_le (Nat.le_of_lt h1)]
    simp [hne]
  · rw [List.length_take]
    omega

/-- Witness for C10 at a concrete input: OLD has one eligible image, NEW
has two, explicit limit 2. -/
theorem C10_origin_short_no_warning_witness :
    ((list_images_raw fxOldDir defaultExts).length < 2 ∧
     2 ≤ (list_images_raw fxNewDir defaultExts).length) ∧
    (scan_old_new fxOldDir fxNewDir (some 2) =
      (list_images_raw fxOldDir defaultExts,
       (list_images_raw fxNewDir defaultExts).take 2,
       if list_images_raw fxOldDir defaultExts = [] then [emptyOldMsg] else []) ∧
     (list_images_raw fxOldDir defaultExts).length <
       ((list_images_raw fxNewDir defaultExts).take 2).length) :=
  ⟨⟨by decide, by decide⟩,
   C10_origin_short_no_warning fxOldDir fxNewDir 2 (by decide) (by decide)⟩

/-- Supporting fact for C4: at a nonzero start time the claimed catch-up
behaviour does hold — started at 1 with count 3, interval 2, delay 0, a
single `tick` at 6 emits all three presses anchored at 1, 3, 5 and ends
`done` with remaining 0. -/
theorem tick_catchup_anchored_at_one :
    ((AutoScreener.init 3 2 0).start 1).tick 6 =
      (⟨3, 2, 0, some 1, some 7, 0, "done"⟩, ("done", 0, 1), 3) := by
  norm_num [AutoScreener.init, AutoScreener.start, AutoScreener.tick, fireLoop, pyOrQ,
    AutoScreener.seconds_to_next]
  decide

/-- C4: the code diverges from the claim at start time 0: because
`(self._next_fire or now)` treats the float 0.0 as falsy, the schedule is
re-anchored to `now` instead of staying anchored at the start; a single
`tick` at time 5 emits one press instead of three and leaves the scheduler
running with remaining = 2 and next fire at 7. -/
theorem C4_zero_start_single_press :
    ((AutoScreener.init 3 2 0).start 0).tick 5 =
      (⟨3, 2, 0, some 0, some 7, 2, "running"⟩, ("running", 2, 2), 1) := by
  norm_num [AutoScreener.init, AutoScreener.start, AutoScreener.tick, fireLoop, pyOrQ,
    AutoScreener.seconds_to_next]
  decide

/-- The firing loop never increases the remaining count. -/
theorem fireLoop_rem_le (now interval : Rat) (r : Nat) (nf : Option Rat) :
    (fireLoop now interval r nf).1 ≤ r := by
  induction r generalizing nf with
  | zero => simp [fireLoop]
  | succ k ih =>
    simp only [fireLoop]
    by_cases h : now ≥ pyOrQ nf now
    · simp only [if_pos h]
      exact le_trans (ih _) (Nat.le_succ k)
    · simp [if_neg h]

/-- Neither `tick` nor `stop` ever increases the remaining count. -/
theorem applyOp_rem_le (s : AutoScreener) (op : SchedOp) :
    (applyOp s op).rem ≤ s.rem := by
  cases op with
  | stopOp => exact Nat.le_refl _
  | tickOp now =>
    by_cases h1 : s.state = "done" ∨ s.state = "stopped" ∨ s.state = "idle"
    · simp [applyOp, AutoScreener.tick, h1]
    · by_cases hc2 : s.state = "countdown" ∧ now ≥ pyOrQ s.next_fire now
      · simp only [applyOp, AutoScreener.tick, if_neg h1, if_pos hc2]
        split
        · split
          · exact fireLoop_rem_le now s.interval s.rem s.next_fire
          · exact fireLoop_rem_le now s.interval s.rem s.next_fire
        · exact Nat.le_refl _
      · simp only [applyOp, AutoScreener.tick, if_neg h1, if_neg hc2]
        split
        · split
          · exact fireLoop_rem_le now s.interval s.rem s.next_fire
          · exact fireLoop_rem_le now s.interval s.rem s.next_fire
        · exact Nat.le_refl _

/-- If `tick` returns a state with remaining 0, either that state is `done`
or `tick` left the scheduler untouched. -/
theorem tick_rem_zero (s : AutoScreener) (now : Rat) :
    (s.tick now).1.rem = 0 → (s.tick now).1.state = "done" ∨ (s.tick now).1 = s := by
  by_cases h1 : s.state = "done" ∨ s.state = "stopped" ∨ s.state = "idle"
  · intro _
    right
    simp [AutoScreener.tick, h1]
  · by_cases hc2 : s.state = "countdown" ∧ now ≥ pyOrQ s.next_fire now
    · simp only [AutoScreener.tick, if_neg h1, if_pos hc2]
      split
      · split
        · intro _
          left
          rfl
        · intro hz
          rename_i hnz
          exact absurd hz hnz
      · rename_i hnr
        exact absurd trivial hnr
    · simp only [AutoScreener.tick, if_neg h1, if_neg hc2]
      split
      · split
        · intro _
          left
          rfl
        · intro hz
          rename_i hnz
          exact absurd hz hnz
      · intro _
        right
        rfl

/-- One interaction preserves the invariant "remaining = 0 only in `done`
or `stopped`". -/
theorem applyOp_rem_zero (s : AutoScreener) (op : SchedOp)
    (h : s.rem = 0 → s.state = "done" ∨ s.state = "stopped") :
    (applyOp s op).rem = 0 →
      (applyOp s op).state = "done" ∨ (applyOp s op).state = "stopped" := by
  cases op with
  | stopOp => intro _; right; rfl
  | tickOp now =>
    intro hz
    rcases tick_rem_zero s now hz with hd | heq
    · left
      exact hd
    · rw [show applyOp s (SchedOp.tickOp now) = (s.tick now).1 from rfl, heq] at hz ⊢
      exact h hz

/-- Any interaction sequence preserves the invariant "remaining = 0 only in
`done` or `stopped`". -/
theorem runOps_rem_zero (ops : List SchedOp) (s : AutoScreener)
    (h : s.rem = 0 → s.state = "done" ∨ s.state = "stopped") :
    (runOps s ops).rem = 0 →
      (runOps s ops).state = "done" ∨ (runOps s ops).state = "stopped" := by
  induction ops generalizing s with
  | nil => exact h
  | cons op rest ih =>
    simp only [runOps, List.foldl_cons] at *
    exact ih (applyOp s op) (applyOp_rem_zero s op h)

/-- C6 as stated is false at a concrete input: start a one-shot scheduler,
let it fire (state `done`, remaining 0), then call `stop`: the reachable
state has remaining 0 with state `stopped` (cancelled), not `finished`. -/
theorem C6_counterexample :
    (runOps ((AutoScreener.init 1 1 0).start 0)
      [SchedOp.tickOp 0, SchedOp.stopOp]).rem = 0 ∧
    (runOps ((AutoScreener.init 1 1 0).start 0)
      [SchedOp.tickOp 0, SchedOp.stopOp]).state = "stopped" ∧
    (runOps ((AutoScreener.init 1 1 0).start 0)
      [SchedOp.tickOp 0, SchedOp.stopOp]).state ≠ "done" := by
  norm_num [runOps, applyOp, AutoScreener.init, AutoScreener.start, AutoScreener.stop,
    AutoScreener.tick, fireLoop, pyOrQ, AutoScreener.seconds_to_next]
  decide

/-- C6 amended: in every state reachable from a started scheduler (positive
fire count) by any sequence of `tick`/`stop` calls, the remaining count
never increases under a further interaction, and remaining = 0 only in
state `done` (finished) or `stopped` (cancelled — reachable with
remaining 0 by stopping after the last fire). -/
theorem C6_remaining_monotone_zero_terminal (count : Nat) (interval delay t : Rat)
    (ops : List SchedOp) (hc : 0 < count) :
    (∀ op, (applyOp (runOps ((AutoScreener.init count interval delay).start t) ops)
        op).rem ≤
      (runOps ((AutoScreener.init count interval delay).start t) ops).rem) ∧
    ((runOps ((AutoScreener.init count interval delay).start t) ops).rem = 0 →
      (runOps ((AutoScreener.init count interval delay).start t) ops).state = "done" ∨
      (runOps ((AutoScreener.init count interval delay).start t) ops).state =
        "stopped") := by
  constructor
  · intro op
    exact applyOp_rem_le _ op
  · apply runOps_rem_zero
    intro hz
    have : count = 0 := hz
    omega

/-- Witness for the amended C6 at a concrete input: a one-shot scheduler
fired once; remaining is 0 and the state is terminal, and a further `stop`
does not increase remaining. -/
theorem C6_remaining_monotone_zero_terminal_witness :
    0 < 1 ∧
    ((applyOp (runOps ((AutoScreener.init 1 1 0).start 0) [SchedOp.tickOp 0])
        SchedOp.stopOp).rem ≤
      (runOps ((AutoScreener.init 1 1 0).start 0) [SchedOp.tickOp 0]).rem) ∧
    ((runOps ((AutoScreener.init 1 1 0).start 0) [SchedOp.tickOp 0]).state = "done" ∨
     (runOps ((AutoScreener.init 1 1 0).start 0) [SchedOp.tickOp 0]).state =
       "stopped") :=
  ⟨by decide,
   (C6_remaining_monotone_zero_terminal 1 1 0 0 [SchedOp.tickOp 0] (by decide)).1
     SchedOp.stopOp,
   (C6_remaining_monotone_zero_terminal 1 1 0 0 [SchedOp.tickOp 0] (by decide)).2
     (by
       norm_num [runOps, applyOp, AutoScreener.init, AutoScreener.start,
         AutoScreener.tick, fireLoop, pyOrQ]
       decide)⟩

end Rebinder
